import Mathlib

/-!
# Ceryn vault core — shallow embedding and verification

This file is a shallow embedding, in Lean 4, of the core of the `ceryn`
dependency-injection engine (`packages/vault/src/core`): the entry flag
system (`flags.ts`), the canonical registry (`entry-store.ts`), the MRU
cache (`mru-cache.ts`), the synchronous resolver (`resolver-sync.ts`
together with the constructor/value paths of `activator.ts` and the
resolution pipeline of `vault.ts`), the cooperative-scheduling model of
the asynchronous singleton path (`resolver-async.ts`), the scope object
(`scope.ts`), registration-time lifecycle validation, shadow-policy
checking, the exposure index (`exposure-index.ts`) and container
disposal (`vault.ts`).

Modelling conventions:
* Token ids are strings; materialized instances are opaque values drawn
  from a fresh-value counter (each constructor invocation yields the
  next counter value), so "same instance" is value equality and
  "fresh instance" is visible as a counter bump.
* JavaScript `undefined` results are modelled as `Option` (`none` =
  `undefined`); resolution entry points therefore return `Option Value`
  exactly where the source can return `undefined`.
* JS `Map`s are association lists; the MRU cache stores live references
  into the entry store, so it is modelled as a map from cached key to
  the canonical id of the referenced entry (reads go through the store,
  which is what reading through the shared object reference does).
* The recursion of the engine (resolver → activator → resolver) is made
  total with an explicit fuel parameter; the source terminates via its
  cycle check, and every theorem below either holds for all fuel or is
  evaluated at an ample concrete fuel.
* The model is single-vault where noted: the cross-vault step of
  `_resolveRelic` (step 4) is the miss branch, which is exact for a
  vault with no fused peers.  Fusion-related behavior (exposure index,
  shadow policy) is modelled separately on vault nodes.
-/

namespace Ceryn

/-! ## flags.ts — entry flag system -/

/-- `LIFECYCLE_SINGLETON = 0b00` (flags.ts). -/
def LIFECYCLE_SINGLETON : Nat := 0

/-- `LIFECYCLE_SCOPED = 0b01` (flags.ts). -/
def LIFECYCLE_SCOPED : Nat := 1

/-- `LIFECYCLE_TRANSIENT = 0b10` (flags.ts). -/
def LIFECYCLE_TRANSIENT : Nat := 2

/-- `LIFECYCLE_MASK = 0b11` (flags.ts). -/
def LIFECYCLE_MASK : Nat := 3

/-- `FLAG_HAS_INSTANCE = 1 << 2` (flags.ts). -/
def FLAG_HAS_INSTANCE : Nat := 4

/-- `FLAG_HAS_NO_DEPS = 1 << 3` (flags.ts). -/
def FLAG_HAS_NO_DEPS : Nat := 8

/-- Precomputed mask from vault.ts: `LIFECYCLE_SINGLETON | FLAG_HAS_INSTANCE`. -/
def SINGLETON_WITH_INSTANCE : Nat := LIFECYCLE_SINGLETON ||| FLAG_HAS_INSTANCE

/-- Precomputed mask from vault.ts: `LIFECYCLE_MASK | FLAG_HAS_INSTANCE`. -/
def SINGLETON_MASK_CHECK : Nat := LIFECYCLE_MASK ||| FLAG_HAS_INSTANCE

/-! ## types.ts — lifecycle strings -/

/-- The three lifecycle strings of `types.ts` (`'singleton' | 'scoped' | 'transient'`). -/
inductive Lifecycle where
  | singleton
  | scoped
  | transient
  deriving DecidableEq, Repr

/-- `lifecycleToFlag` from types.ts. -/
def lifecycleToFlag : Lifecycle → Nat
  | .singleton => LIFECYCLE_SINGLETON
  | .scoped => LIFECYCLE_SCOPED
  | .transient => LIFECYCLE_TRANSIENT

/-! ## Basic model types -/

/-- Canonical token ids (`CanonicalId` in token.ts is a branded string). -/
abbrev CanonicalId := String

/-- Materialized instances are opaque; we draw them from a counter so that
distinct constructor invocations are visibly distinct. -/
abbrev Value := Nat

/-- Association-list read, standing in for `Map.get`. -/
def assocGet {α : Type} (l : List (CanonicalId × α)) (k : CanonicalId) : Option α :=
  match l with
  | [] => none
  | (k', v) :: rest => if k = k' then some v else assocGet rest k

/-- Association-list write, standing in for `Map.set` (insert or overwrite). -/
def assocSet {α : Type} (l : List (CanonicalId × α)) (k : CanonicalId) (v : α) :
    List (CanonicalId × α) :=
  match l with
  | [] => [(k, v)]
  | (k', v') :: rest => if k = k' then (k, v) :: rest else (k', v') :: assocSet rest k v

/-! ## entry-store.ts — the registration record and canonical registry -/

/-- The registration record (`Entry` in entry-store.ts).

`ctor` is modelled by its presence (`hasCtor`), since the engine only ever
calls it or reads its name; `factory` entries are exercised through the
cooperative async model below, where the factory is abstracted by its
outcome, so the sync instantiation model carries no factory field.
`metadata` is flattened to its `lifecycle` and `label` components
(`name` coincides with `token` at every registration site). -/
structure Entry where
  token : CanonicalId
  hasCtor : Bool
  summons : List (Option CanonicalId)
  lifecycle : Lifecycle
  label : String
  aliases : List String
  inst : Option Value
  /-- Pending creation for async singletons (`Entry.promise`), identified
  by the creation id it will settle with. -/
  promise : Option Nat
  flags : Nat
  deriving DecidableEq, Repr

/-- Errors of errors.ts that the modelled paths can produce, plus the
out-of-fuel marker that makes the embedding total. -/
inductive ResErr where
  | notFound (token : String)
  | circular (cycle : List String)
  | scopedWithoutScope (token : String) (chain : List String)
  | missingSummon (ctorName : String) (idx : Nat)
  | unconstructable (token : String)
  | tokenCollision (token existingOwner newOwner : String)
  | lifecycleViolation (consumer : String) (consumerLc : Lifecycle)
      (dep : String) (depLc : Lifecycle)
  | scopeDisposed
  | outOfFuel
  deriving DecidableEq, Repr

/-- The canonical registry (`EntryStore`): entry map plus ownership map. -/
structure EntryStore where
  entries : List (CanonicalId × Entry)
  owners : List (CanonicalId × String)
  deriving DecidableEq, Repr

/-- `EntryStore.add(entry, vaultName)` from entry-store.ts: look up the
existing owner of the canonical id; if present, throw `TokenCollisionError`
with the existing owner and the new vault name; otherwise store the entry
and its ownership record. -/
def EntryStore.add (s : EntryStore) (e : Entry) (vaultName : String) :
    Except ResErr EntryStore :=
  match assocGet s.owners e.token with
  | some existingOwner => .error (.tokenCollision e.token existingOwner vaultName)
  | none => .ok ⟨assocSet s.entries e.token e, assocSet s.owners e.token vaultName⟩

/-- `EntryStore.getByCanonical`. -/
def EntryStore.getByCanonical (s : EntryStore) (c : CanonicalId) : Option Entry :=
  assocGet s.entries c

/-- `EntryStore.has`. -/
def EntryStore.hasTok (s : EntryStore) (c : CanonicalId) : Bool :=
  (assocGet s.entries c).isSome

/-! ## scope.ts / vault.ts — mutable state of one vault and one scope

The MRU cache (`mru-cache.ts`) stores live references into the entry
store, so `cacheKeys` maps each cached key (canonical id or alias) to the
canonical id of the referenced entry; reads go through the store. -/

/-- Scope state (`Scope` in scope.ts): disposed flag, scope-local
registrations made by `provide()` (each stored entry always carries
`FLAG_HAS_INSTANCE` and the exact value), and the scoped-instance cache
(each stored copy carries `FLAG_HAS_INSTANCE` and the materialized
instance, which the source allows to be `undefined`). Disposer sets are
not modelled: the opaque model values expose no `dispose`/`close`
capability, so the duck-typed registration guard is always false. -/
structure ScopeSt where
  disposed : Bool
  locals : List (CanonicalId × Value)
  cache : List (CanonicalId × Option Value)
  deriving DecidableEq, Repr

/-- Mutable vault state touched by resolution: the entry store, the MRU
cache, and the fresh-instance counter standing in for `new ctor(...)`. -/
structure VaultSt where
  store : EntryStore
  cacheKeys : List (CanonicalId × CanonicalId)
  counter : Nat
  deriving DecidableEq, Repr

/-- `MRUCache.get` through the reference: cached key → canonical → entry. -/
def cacheGet (st : VaultSt) (k : CanonicalId) : Option Entry :=
  (assocGet st.cacheKeys k).bind (fun c => st.store.getByCanonical c)

/-- `MRUCache.primeAll(requestToken, entry)`: prime the canonical id, the
request token if different, and all aliases not already covered. -/
def cachePrimeAll (ks : List (CanonicalId × CanonicalId)) (requestToken : CanonicalId)
    (e : Entry) : List (CanonicalId × CanonicalId) :=
  let ks1 := assocSet ks e.token e.token
  let ks2 := if requestToken ≠ e.token then assocSet ks1 requestToken e.token else ks1
  e.aliases.foldl
    (fun acc al =>
      if al ≠ e.token ∧ al ≠ requestToken then assocSet acc al e.token else acc)
    ks2

/-- Scope-cache variant of `primeAll` (the scoped copy carries the value). -/
def scopePrimeAll (ks : List (CanonicalId × Option Value)) (requestToken : CanonicalId)
    (e : Entry) (v : Option Value) : List (CanonicalId × Option Value) :=
  let ks1 := assocSet ks e.token v
  let ks2 := if requestToken ≠ e.token then assocSet ks1 requestToken v else ks1
  e.aliases.foldl
    (fun acc al =>
      if al ≠ e.token ∧ al ≠ requestToken then assocSet acc al v else acc)
    ks2

/-- Replace the stored entry for a canonical id (a write through the live
object reference in the source). -/
def VaultSt.setEntry (st : VaultSt) (c : CanonicalId) (e : Entry) : VaultSt :=
  { st with store := { st.store with entries := assocSet st.store.entries c e } }

/-- `_formatTokenForDiagnostics` / `describeToken` (single-vault form):
``label [id]`` for locally registered entries, the raw id otherwise. -/
def describeToken (st : VaultSt) (c : CanonicalId) : String :=
  match st.store.getByCanonical c with
  | some e => e.label ++ " [" ++ c ++ "]"
  | none => c

/-- Result of one resolution step: the produced value (`none` stands for
JavaScript `undefined`), the updated vault state and the updated scope. -/
abbrev RRes := Except ResErr (Option Value × VaultSt × Option ScopeSt)

/-! ## activator.ts — synchronous instantiation (constructor/value paths)

`instantiateSyncWith` is `Activator.instantiateSync` parameterized by the
dependency resolver (`vault._resolveRelic` in the source); the factory
branch is not modelled here (the factory-backed creation is abstracted by
its outcome in the cooperative async model below). The class name used by
`MissingSummonDecoratorError` is modelled by the entry label. -/

/-- Resolve the positional `summons` of a constructor left to right
(`entry.summons.map((dep, idx) => ...)` in the source): an unset slot
fails with the missing-summon error naming the parameter index, before
any later dependency is resolved. -/
def resolveSummonsWith (resolveDep : CanonicalId → List CanonicalId → VaultSt → Option ScopeSt → RRes)
    (ctorName : String) :
    List (Option CanonicalId) → Nat → List CanonicalId → VaultSt → Option ScopeSt →
      Except ResErr (VaultSt × Option ScopeSt)
  | [], _, _, st, scope => .ok (st, scope)
  | none :: _, idx, _, _, _ => .error (.missingSummon ctorName idx)
  | some d :: rest, idx, stack, st, scope =>
    match resolveDep d stack st scope with
    | .error e => .error e
    | .ok (_, st', scope') => resolveSummonsWith resolveDep ctorName rest (idx + 1) stack st' scope'

/-- `Activator.instantiateSync` (constructor/value paths): value-backed
entries return the stored value or fail unconstructable; a zero-summons
constructor is called directly (fast path); otherwise every summon is
resolved positionally and the constructor is invoked, yielding a fresh
instance (the next counter value). -/
def instantiateSyncWith
    (resolveDep : CanonicalId → List CanonicalId → VaultSt → Option ScopeSt → RRes)
    (e : Entry) (stack : List CanonicalId) (st : VaultSt) (scope : Option ScopeSt) : RRes :=
  if ¬ e.hasCtor then
    -- Value-backed: user supplied a concrete value via useValue provider
    match e.inst with
    | some v => .ok (some v, st, scope)
    | none => .error (.unconstructable e.token)
  else if e.flags &&& FLAG_HAS_NO_DEPS != 0 then
    -- Zero-summons fast path: cheap constructor call
    .ok (some st.counter, { st with counter := st.counter + 1 }, scope)
  else
    match resolveSummonsWith resolveDep e.label e.summons 0 stack st scope with
    | .error err => .error err
    | .ok (st', scope') => .ok (some st'.counter, { st' with counter := st'.counter + 1 }, scope')

/-! ## resolver-sync.ts + vault.ts — the synchronous resolution pipeline -/

/-- `Vault._resolveRelic` parameterized by the local resolver
(`resolverSync.fromEntry`): singleton-cache check, scope-cache check,
local resolution with conditional cache priming, then (with no fused
peers) the not-found error. -/
def resolveRelicWith (localResolve : CanonicalId → List CanonicalId → VaultSt → Option ScopeSt → RRes)
    (tok : CanonicalId) (stack : List CanonicalId) (st : VaultSt) (scope : Option ScopeSt) : RRes :=
  -- Step 1: _tryGetFromSingletonCache — instance returned only when the
  -- combined mask check passes and the instance is defined
  let fromSingletonCache : Option Value :=
    (cacheGet st tok).bind (fun e =>
      if e.flags &&& SINGLETON_MASK_CHECK == SINGLETON_WITH_INSTANCE then e.inst else none)
  match fromSingletonCache with
  | some v => .ok (some v, st, scope)
  | none =>
    -- Step 2: _tryGetFromScopeCache — scope-local registrations first,
    -- then the scoped-instance cache
    let fromScopeCache : Option Value :=
      match scope with
      | none => none
      | some sc =>
        match assocGet sc.locals tok with
        | some v => some v
        | none => (assocGet sc.cache tok).bind id
    match fromScopeCache with
    | some v => .ok (some v, st, scope)
    | none =>
      -- Step 3: _resolveLocal — resolve via the entry store, then prime
      -- the cache when the entry is a singleton that was not yet cached
      let wasCached := (assocGet st.cacheKeys tok).isSome
      if st.store.hasTok tok then
        match localResolve tok stack st scope with
        | .error e => .error e
        | .ok (v, st', scope') =>
          let st'' :=
            if ¬ wasCached then
              match st'.store.getByCanonical tok with
              | some e' =>
                if e'.flags &&& LIFECYCLE_MASK == LIFECYCLE_SINGLETON then
                  { st' with cacheKeys := cachePrimeAll st'.cacheKeys tok e' }
                else st'
              | none => st'
            else st'
          match v with
          | some v' => .ok (some v', st'', scope')
          -- Step 4 (cross-vault) is a miss for a vault with no fused
          -- peers; Step 5: not found
          | none => .error (.notFound tok)
      else .error (.notFound tok)

/-- `ResolverSync.fromEntry`, fuelled: store lookup, cycle detection with
the exact cycle slice, stack push, singleton fast path, scoped cache
check, scoped-without-scope error, instantiation, singleton commit with
cache priming, scoped commit into the scope cache. -/
def fromEntry : Nat → CanonicalId → List CanonicalId → VaultSt → Option ScopeSt → RRes
  | 0, _, _, _, _ => .error .outOfFuel
  | fuel + 1, canonical, stack, st, scope =>
    match st.store.getByCanonical canonical with
    | none => .error (.notFound canonical)
    | some entry =>
      -- Detect dependency cycles early with the current canonical token
      if canonical ∈ stack then
        .error (.circular
          ((stack.drop (stack.indexOf canonical) ++ [canonical]).map (describeToken st)))
      else
        -- stack.push(canonical) — popped in the finally of the source
        let stack' := stack ++ [canonical]
        let lifecycleFlags := entry.flags &&& LIFECYCLE_MASK
        -- Fast path: hot singleton instance already materialized
        if entry.flags &&& LIFECYCLE_SINGLETON == 0 && entry.flags &&& FLAG_HAS_INSTANCE != 0 then
          .ok (entry.inst, st, scope)
        else
          -- Scoped cache check: return cached instance if available in scope
          let scopedHit : Option (Option Value) :=
            match scope with
            | some sc => if lifecycleFlags == LIFECYCLE_SCOPED then assocGet sc.cache entry.token else none
            | none => none
          match scopedHit with
          | some cachedInst => .ok (cachedInst, st, scope)
          | none =>
            -- Scoped lifecycle requires a scope parameter
            if lifecycleFlags == LIFECYCLE_SCOPED ∧ scope = none then
              .error (.scopedWithoutScope entry.token (stack'.map (describeToken st)))
            else
              match instantiateSyncWith
                  (fun c s stv sc => resolveRelicWith
                    (fun c' s' stv' sc' => fromEntry fuel c' s' stv' sc') c s stv sc)
                  entry stack' st scope with
              | .error e => .error e
              | .ok (value, st1, scope1) =>
                -- Singleton: commit instance to the shared Entry and
                -- prime the vault MRU cache
                let st2 :=
                  if entry.flags &&& LIFECYCLE_MASK == 0 then
                    match st1.store.getByCanonical canonical with
                    | some e1 =>
                      let e2 := { e1 with inst := value, flags := e1.flags ||| FLAG_HAS_INSTANCE }
                      let stc := st1.setEntry canonical e2
                      { stc with cacheKeys := cachePrimeAll stc.cacheKeys entry.token e2 }
                    | none => st1
                  else st1
                -- Scoped: store a shallow copy in the scope cache
                let scope2 :=
                  if lifecycleFlags == LIFECYCLE_SCOPED then
                    match scope1 with
                    | some sc => some { sc with cache := scopePrimeAll sc.cache entry.token entry value }
                    | none => scope1
                  else scope1
                .ok (value, st2, scope2)

/-- `Vault._resolveRelic` at a given fuel. -/
def resolveRelic (fuel : Nat) (tok : CanonicalId) (stack : List CanonicalId)
    (st : VaultSt) (scope : Option ScopeSt) : RRes :=
  resolveRelicWith (fun c s stv sc => fromEntry fuel c s stv sc) tok stack st scope

/-- Continuation of `Vault.resolve` after the singleton-cache check
(`wasCached` records whether `cache.get(id)` was defined). -/
def vaultResolveRest (fuel : Nat) (st : VaultSt) (scope : Option ScopeSt)
    (tok : CanonicalId) (wasCached : Bool) : RRes :=
  -- PRIORITY 3: scope cache for scoped-lifecycle instances
  let p3 : Option Value :=
    match scope with
    | some sc => (assocGet sc.cache tok).bind id
    | none => none
  match p3 with
  | some v => .ok (some v, st, scope)
  | none =>
    -- Local resolution on a scratch stack of length 0
    if st.store.hasTok tok then
      match fromEntry fuel tok [] st scope with
      | .error e => .error e
      | .ok (out, st', scope') =>
        let st'' :=
          match st'.store.getByCanonical tok with
          | some localE =>
            if localE.flags &&& LIFECYCLE_MASK == LIFECYCLE_SINGLETON ∧ ¬ wasCached then
              { st' with cacheKeys := cachePrimeAll st'.cacheKeys tok localE }
            else st'
          | none => st'
        .ok (out, st'', scope')
    else
      -- Cross-vault (cold path) misses for a vault with no fused peers
      .error (.notFound tok)

/-- `Vault.resolve(token, {scope})` (vault.ts): scope-local registrations
first, then the singleton cache (an unconditional return when the mask
check passes), then the scope cache, then local resolution on a fresh
stack with conditional cache priming; with no fused peers a miss is the
not-found error. -/
def vaultResolve (fuel : Nat) (st : VaultSt) (scope : Option ScopeSt) (tok : CanonicalId) : RRes :=
  -- PRIORITY 1: scope-local registrations
  let p1 : Option Value :=
    match scope with
    | some sc => assocGet sc.locals tok
    | none => none
  match p1 with
  | some v => .ok (some v, st, scope)
  | none =>
    -- PRIORITY 2: singleton cache (returns cached.instance unconditionally
    -- once the mask check passes)
    let cached := cacheGet st tok
    match cached with
    | some ce =>
      if ce.flags &&& SINGLETON_MASK_CHECK == SINGLETON_WITH_INSTANCE then
        .ok (ce.inst, st, scope)
      else vaultResolveRest fuel st scope tok cached.isSome
    | none => vaultResolveRest fuel st scope tok cached.isSome

/-! ## scope.ts — has / resolve / tryResolve -/

/-- `Vault.canResolve` for a vault with no fused peers: a local
registration check (the exposure maps are empty). -/
def canResolveModel (st : VaultSt) (tok : CanonicalId) : Bool :=
  st.store.hasTok tok

/-- `Scope.has`: false once disposed; scope-local registrations first;
then delegation to the owning vault's visibility check. -/
def scopeHas (sc : ScopeSt) (st : VaultSt) (tok : CanonicalId) : Bool :=
  if sc.disposed then false
  else if (assocGet sc.locals tok).isSome then true
  else canResolveModel st tok

/-- `Scope.resolve`: scope-disposed error; scope-local registrations
first; then `vault.resolve(token, { scope: this })`. -/
def scopeResolve (fuel : Nat) (sc : ScopeSt) (st : VaultSt) (tok : CanonicalId) : RRes :=
  if sc.disposed then .error .scopeDisposed
  else
    match assocGet sc.locals tok with
    | some v => .ok (some v, st, some sc)
    | none => vaultResolve fuel st (some sc) tok

/-- `Scope.tryResolve`: `undefined` when the scope is disposed;
`undefined` when `has()` fails; otherwise `resolve()`, letting every
resolution error propagate. -/
def scopeTryResolve (fuel : Nat) (sc : ScopeSt) (st : VaultSt) (tok : CanonicalId) : RRes :=
  if sc.disposed then .ok (none, st, some sc)
  else if ¬ scopeHas sc st tok then .ok (none, st, some sc)
  else scopeResolve fuel sc st tok

/-! ## vault.ts — registration and registration-time lifecycle validation -/

/-- Deduplicate preserving first occurrences (a JS `Set` built by
insertion preserves insertion order). -/
def dedupFirstAux : List CanonicalId → List CanonicalId → List CanonicalId
  | [], _ => []
  | x :: xs, seen =>
    if x ∈ seen then dedupFirstAux xs seen else x :: dedupFirstAux xs (x :: seen)

/-- Deduplicate preserving first occurrences. -/
def dedupFirst (l : List CanonicalId) : List CanonicalId :=
  dedupFirstAux l []

/-- The inner rule check of `_validateDependencyLifecyclesForEntry`:
singleton may not depend on scoped or transient; scoped may not depend on
transient; a dependency that is not registered yet is skipped (deferred). -/
def validateDepList (store : EntryStore) (consumerLabel : String) (consumerLc : Lifecycle) :
    List CanonicalId → Except ResErr Unit
  | [] => .ok ()
  | d :: rest =>
    match store.getByCanonical d with
    | none => validateDepList store consumerLabel consumerLc rest
    | some depE =>
      if consumerLc = .singleton ∧ (depE.lifecycle = .scoped ∨ depE.lifecycle = .transient) then
        .error (.lifecycleViolation consumerLabel consumerLc depE.label depE.lifecycle)
      else if consumerLc = .scoped ∧ depE.lifecycle = .transient then
        .error (.lifecycleViolation consumerLabel consumerLc depE.label depE.lifecycle)
      else validateDepList store consumerLabel consumerLc rest

/-- `Vault._validateDependencyLifecyclesForEntry`: best-effort validation
at registration time over the deduplicated dependency set of the entry
(constructor summons; class providers carry no factory deps). -/
def validateDependencyLifecyclesForEntry (store : EntryStore) (e : Entry) :
    Except ResErr Unit :=
  validateDepList store e.label e.lifecycle (dedupFirst (e.summons.filterMap id))

/-- Provider shapes accepted by the `relics` array that the model needs:
class providers (`useClass` with an explicit lifecycle) and value
providers (`useValue`, always a pre-materialized singleton). -/
inductive ProviderSpec where
  | classP (provide : CanonicalId) (lifecycle : Lifecycle) (deps : List (Option CanonicalId))
  | valueP (provide : CanonicalId) (v : Value)
  deriving DecidableEq, Repr

/-- `_registerClassProvider` / `_registerValueProvider` from vault.ts:
build the entry (lifecycle bits plus the zero-dependency flag; value
providers are singleton, pre-materialized, no deps), `store.add` it,
then — for class providers only — run the best-effort lifecycle
validation. -/
def registerRelicModel (store : EntryStore) (vaultName : String) :
    ProviderSpec → Except ResErr EntryStore
  | .classP c lc deps => do
    let entry : Entry :=
      { token := c, hasCtor := true, summons := deps, lifecycle := lc, label := c,
        aliases := [c], inst := none, promise := none,
        flags := lifecycleToFlag lc ||| (if deps.isEmpty then FLAG_HAS_NO_DEPS else 0) }
    let store' ← store.add entry vaultName
    let _ ← validateDependencyLifecyclesForEntry store' entry
    .ok store'
  | .valueP c v => do
    let entry : Entry :=
      { token := c, hasCtor := true, summons := [], lifecycle := .singleton, label := c,
        aliases := [c], inst := some v, promise := none,
        flags := LIFECYCLE_SINGLETON ||| FLAG_HAS_INSTANCE ||| FLAG_HAS_NO_DEPS }
    store.add entry vaultName

/-- `_validateAndProcessRelics`: register the relics array in order,
failing fast on the first registration error. -/
def registerRelics (vaultName : String) (relics : List ProviderSpec) :
    Except ResErr EntryStore :=
  relics.foldlM (fun s p => registerRelicModel s vaultName p) ⟨[], []⟩

/-- Wrap a freshly registered store as resolution state. -/
def VaultSt.ofStore (s : EntryStore) : VaultSt := ⟨s, [], 0⟩

/-! ## resolver-async.ts — cooperative model of the async singleton path

Suspension points exist only at `await`; the prologue of
`ResolverAsync.fromEntry` (store lookup, cycle check, materialized fast
path, in-flight check and the synchronous assignment of `entry.promise`)
contains none, so under the engine's single-threaded cooperative
scheduling it runs atomically per caller.  An in-flight creation is
identified by a fresh promise id; the factory/constructor work it stands
for is abstracted by its eventual outcome. -/

/-- What the singleton branch of the async resolver decides for one
arriving caller, before any `await`. -/
inductive ArrivalAction where
  /-- Fast path: instance already materialized, returned without awaiting. -/
  | immediateValue (v : Option Value)
  /-- The caller awaits the in-flight promise `pid`;
  `startedCreation` records whether this caller created it (i.e. whether
  the underlying factory/constructor invocation was kicked off here). -/
  | awaitShared (pid : Nat) (startedCreation : Bool)
  /-- Non-singleton lifecycles continue in the scoped/transient branches,
  which are not part of this cooperative model. -/
  | proceedsNonSingleton
  deriving DecidableEq, Repr

/-- The synchronous prologue of `ResolverAsync.fromEntry` for one caller:
store lookup, cycle detection (same slice as the sync resolver),
materialized fast path, then promise deduplication — only when no
creation is in flight is a new shared creation started (decoupled from
the caller's own signal: the model takes no signal at all, mirroring the
`/* no signal */` call in the source). -/
def asyncArrive (canonical : CanonicalId) (stack : List CanonicalId)
    (st : VaultSt) (freshPid : Nat) : Except ResErr (ArrivalAction × VaultSt) :=
  match st.store.getByCanonical canonical with
  | none => .error (.notFound canonical)
  | some entry =>
    if canonical ∈ stack then
      .error (.circular
        ((stack.drop (stack.indexOf canonical) ++ [canonical]).map (describeToken st)))
    else
      if entry.flags &&& LIFECYCLE_MASK == LIFECYCLE_SINGLETON then
        if entry.flags &&& FLAG_HAS_INSTANCE != 0 then
          .ok (.immediateValue entry.inst, st)
        else
          match entry.promise with
          | some pid => .ok (.awaitShared pid false, st)
          | none =>
            .ok (.awaitShared freshPid true,
              st.setEntry canonical { entry with promise := some freshPid })
      else .ok (.proceedsNonSingleton, st)

/-- The continuation attached to the shared creation promise
(`.then`/`.catch` in the source): on success commit the instance, set
`FLAG_HAS_INSTANCE`, clear the in-flight slot and prime the vault MRU
cache; on failure clear the in-flight slot so a later call may retry,
and rethrow. -/
def settleShared (canonical : CanonicalId) (st : VaultSt) (outcome : Except Nat Value) :
    VaultSt × Except Nat Value :=
  match st.store.getByCanonical canonical with
  | none => (st, outcome)
  | some entry =>
    match outcome with
    | .ok v =>
      let e2 :=
        { entry with inst := some v, flags := entry.flags ||| FLAG_HAS_INSTANCE, promise := none }
      let st2 := st.setEntry canonical e2
      ({ st2 with cacheKeys := cachePrimeAll st2.cacheKeys entry.token e2 }, .ok v)
    | .error err => (st.setEntry canonical { entry with promise := none }, .error err)

/-- What one caller's own `await` of the shared creation delivers. -/
inductive AsyncOutcome where
  | ok (v : Value)
  | err (e : Nat)
  /-- The caller's own `AbortSignal` fired first: its `Promise.race`
  rejects with the abort error while the shared creation is untouched. -/
  | aborted
  deriving DecidableEq, Repr

/-- `Promise.race([entry.promise, abortP])` for one caller: if that
caller's signal aborts before the shared creation settles, only this
caller's await rejects; otherwise the shared outcome is delivered. -/
def raceDeliver (shared : Except Nat Value) (abortedFirst : Bool) : AsyncOutcome :=
  if abortedFirst then .aborted
  else match shared with
    | .ok v => .ok v
    | .error e => .err e

/-- `n` concurrent callers arriving (in cooperative order) before the
shared creation settles, each with a fresh candidate promise id. -/
def asyncArrivals (canonical : CanonicalId) :
    Nat → VaultSt → Nat → VaultSt × List (Except ResErr ArrivalAction)
  | 0, st, _ => (st, [])
  | n + 1, st, pid =>
    match asyncArrive canonical [] st pid with
    | .error e =>
      let (st', acts) := asyncArrivals canonical n st (pid + 1)
      (st', .error e :: acts)
    | .ok (a, st1) =>
      let (st', acts) := asyncArrivals canonical n st1 (pid + 1)
      (st', .ok a :: acts)

/-- Count how many arrivals actually started a creation. -/
def creationsStarted (acts : List (Except ResErr ArrivalAction)) : Nat :=
  acts.countP (fun a =>
    match a with
    | .ok (.awaitShared _ true) => true
    | _ => false)

/-! ## vault.ts — disposal -/

/-- Disposal behavior a materialized instance can expose through its
`dispose`/`close` method. -/
inductive Disposer where
  | syncOk
  | syncThrow (e : Nat)
  | asyncOk
  | asyncReject (e : Nat)
  deriving DecidableEq, Repr

/-- A materialized instance as disposal sees it: either it exposes a
`dispose`/`close` capability or it does not. -/
structure DInstance where
  disposer : Option Disposer
  deriving DecidableEq, Repr

/-- An entry as `Vault.dispose` sees it: the instance slot, the pending
async-singleton promise slot, and the flag word. -/
structure DEntry where
  token : CanonicalId
  inst : Option DInstance
  promise : Bool
  flags : Nat
  deriving DecidableEq, Repr

/-- Whole-vault state touched by `dispose`: the entries in iteration
order, the MRU cache and exposure index contents (abstract), and the
disposed flag. -/
structure DVault where
  entries : List DEntry
  cache : List CanonicalId
  exposure : List CanonicalId
  disposed : Bool
  deriving DecidableEq, Repr

/-- `~FLAG_HAS_INSTANCE` on the 32-bit flag word. -/
def NOT_FLAG_HAS_INSTANCE : Nat := 2 ^ 32 - 1 - FLAG_HAS_INSTANCE

/-- The per-entry body of the disposal loop: entries without an instance
are skipped entirely (`continue`) — their promise slot survives; entries
with an instance have their disposer (if any) invoked, synchronous throws
caught, async results collected for `allSettled`, and their
instance/promise slots and instance flag cleared unconditionally.
Returns (updated entry, sync error?, pending async result?, invoked?). -/
def disposeEntry (e : DEntry) : DEntry × Option Nat × Option (Except Nat Unit) × Bool :=
  match e.inst with
  | none => (e, none, none, false)
  | some i =>
    let cleared : DEntry :=
      { e with inst := none, promise := false, flags := e.flags &&& NOT_FLAG_HAS_INSTANCE }
    match i.disposer with
    | none => (cleared, none, none, false)
    | some .syncOk => (cleared, none, none, true)
    | some (.syncThrow err) => (cleared, some err, none, true)
    | some .asyncOk => (cleared, none, some (.ok ()), true)
    | some (.asyncReject err) => (cleared, none, some (.error err), true)

/-- The disposal loop over all entries, in order: collects updated
entries, synchronous errors, pending async results and invoked tokens. -/
def disposeLoop : List DEntry →
    List DEntry × List Nat × List (Except Nat Unit) × List CanonicalId
  | [] => ([], [], [], [])
  | e :: rest =>
    let (e', syncErr, pending, invoked) := disposeEntry e
    let (es, errs, pends, invs) := disposeLoop rest
    (e' :: es,
     (match syncErr with | some err => [err] | none => []) ++ errs,
     (match pending with | some p => [p] | none => []) ++ pends,
     (if invoked then [e.token] else []) ++ invs)

/-- `Vault.dispose`: a no-op once disposed; otherwise run the disposal
loop, clear the cache and the exposure index, await every pending result
via `allSettled` (collapsed here: the rejections are appended, in pending
order, after the synchronous errors), mark the vault disposed only after
every attempt has completed, and report the collected failures.
Returns (final state, aggregated errors, invoked disposer tokens). -/
def disposeVault (v : DVault) : DVault × List Nat × List CanonicalId :=
  if v.disposed then (v, [], [])
  else
    let (es, syncErrs, pending, invoked) := disposeLoop v.entries
    let asyncErrs := pending.filterMap (fun r =>
      match r with
      | .error e => some e
      | .ok _ => none)
    ({ entries := es, cache := [], exposure := [], disposed := true },
     syncErrs ++ asyncErrs, invoked)

/-- The `AggregateDisposalError` outcome: thrown exactly when at least
one disposal failed, carrying all collected failures. -/
def disposeOutcome (v : DVault) : Except (List Nat) Unit :=
  let (_, errs, _) := disposeVault v
  if errs.isEmpty then .ok () else .error errs

/-! ## exposure-index.ts + vault.ts — fusion graph, exposure, shadow policy -/

/-- A vault as the exposure DFS sees it: name, aether flag, local
entries, revealed canonical ids, directly fused vaults. Fusion is by
value here, so distinct nodes are distinguished by name (the source
tracks object identity; names are assumed unique per graph). -/
inductive VaultNode where
  | mk (name : String) (aether : Bool) (entries : List (CanonicalId × Entry))
      (revealed : List CanonicalId) (fused : List VaultNode)
  deriving Repr

def VaultNode.name : VaultNode → String
  | .mk n _ _ _ _ => n

def VaultNode.aether : VaultNode → Bool
  | .mk _ a _ _ _ => a

def VaultNode.entries : VaultNode → List (CanonicalId × Entry)
  | .mk _ _ es _ _ => es

def VaultNode.revealed : VaultNode → List CanonicalId
  | .mk _ _ _ r _ => r

def VaultNode.fused : VaultNode → List VaultNode
  | .mk _ _ _ _ f => f

/-- The two exposure maps — key (canonical id or alias) to
(producing vault name, canonical id). -/
structure Exposure where
  aether : List (CanonicalId × (String × CanonicalId))
  revealed : List (CanonicalId × (String × CanonicalId))
  deriving DecidableEq, Repr

/-- `ExposureIndex.indexVault`: index one vault's revealed tokens (and
their aliases) into the target map with first-wins semantics — a key
already present is silently left alone. -/
def indexVault (ex : Exposure) (n : VaultNode) : Exposure :=
  let target := if n.aether then ex.aether else ex.revealed
  let target' := n.revealed.foldl
    (fun m canonical =>
      match assocGet n.entries canonical with
      | none => m
      | some e =>
        if (assocGet m canonical).isSome then m
        else
          e.aliases.foldl
            (fun acc al =>
              if (assocGet acc al).isSome then acc else assocSet acc al (n.name, canonical))
            (assocSet m canonical (n.name, canonical)))
    target
  if n.aether then { ex with aether := target' } else { ex with revealed := target' }

mutual
/-- One step of the iterative DFS of `ExposureIndex.compute`: skip
already-visited vaults, index the current one, then traverse its fused
vaults.  The explicit stack of the source pops last-pushed first, so the
fused list is traversed back to front, each subtree completely.  The
fuel bounds the traversal depth (the source's worklist is finite); every
use below supplies ample fuel. -/
def visitNode : Nat → VaultNode → List String → Exposure → List String × Exposure
  | 0, _, visited, ex => (visited, ex)
  | fuel + 1, n, visited, ex =>
    if n.name ∈ visited then (visited, ex)
    else visitFusedRev fuel n.fused (n.name :: visited) (indexVault ex n)

/-- Traverse a fused list in stack order (last pushed popped first). -/
def visitFusedRev : Nat → List VaultNode → List String → Exposure → List String × Exposure
  | 0, _, visited, ex => (visited, ex)
  | _ + 1, [], visited, ex => (visited, ex)
  | fuel + 1, c :: rest, visited, ex =>
    let (v', ex') := visitFusedRev fuel rest visited ex
    visitNode fuel c v' ex'
end

/-- `ExposureIndex.compute(root)`: DFS from the root (the root's own
revealed tokens are indexed too), at a traversal-depth fuel. -/
def computeExposure (fuel : Nat) (root : VaultNode) : Exposure :=
  (visitNode fuel root [] ⟨[], []⟩).2

/-- Shadow policies (`types.ts`), default `error`. -/
inductive ShadowPolicy where
  | allow
  | warn
  | error
  deriving DecidableEq, Repr

/-- One shadow-policy violation: the formatted token, the deduplicated
producing vault names, and the local entry's lifecycle. -/
structure ShadowViolation where
  token : String
  producers : List String
  lifecycle : Lifecycle
  deriving DecidableEq, Repr

/-- `_computeShadowIncoming`: walk the aether map then the revealed map,
collecting, per canonical id, the producing vault names other than this
vault itself. -/
def computeShadowIncoming (selfName : String) (ex : Exposure) :
    List (CanonicalId × List String) :=
  (ex.aether ++ ex.revealed).foldl
    (fun m kv =>
      let vName := kv.2.1
      let canonical := kv.2.2
      if vName = selfName then m
      else
        match assocGet m canonical with
        | some arr => assocSet m canonical (arr ++ [vName])
        | none => assocSet m canonical [vName])
    []

/-- `_collectShadowViolations`: every locally registered canonical id
that has at least one incoming producer yields a violation carrying the
formatted token, the deduplicated producers, and the local lifecycle. -/
def collectShadowViolations (selfName : String) (store : EntryStore) (ex : Exposure) :
    List ShadowViolation :=
  let incoming := computeShadowIncoming selfName ex
  store.entries.foldr
    (fun kv acc =>
      match assocGet incoming kv.1 with
      | none => acc
      | some [] => acc
      | some producers =>
        { token := kv.2.label ++ " [" ++ kv.1 ++ "]",
          producers := dedupFirst producers,
          lifecycle := kv.2.lifecycle } :: acc)
    []

/-- `_enforceShadowPolicy`: `allow` does nothing; with no violations
nothing happens; `warn` logs and proceeds; `error` throws one
`MultipleShadowPolicyViolationsError` carrying every violation. -/
def enforceShadowPolicy (selfName : String) (policy : ShadowPolicy)
    (store : EntryStore) (ex : Exposure) : Except (String × List ShadowViolation) Unit :=
  if policy = .allow then .ok ()
  else
    let violations := collectShadowViolations selfName store ex
    if violations.isEmpty then .ok ()
    else if policy = .warn then .ok ()
    else .error (selfName, violations)

/-- The constructed-container state the shadow claims need. -/
structure VaultFull where
  name : String
  shadowPolicy : ShadowPolicy
  aether : Bool
  store : EntryStore
  revealedTokens : List CanonicalId
  fusedVaults : List VaultNode
  exposure : Exposure

/-- A constructed vault as a fusion-graph node. -/
def VaultFull.toNode (v : VaultFull) : VaultNode :=
  .mk v.name v.aether v.store.entries v.revealedTokens v.fusedVaults

/-- Construction configuration (the parts of `VaultConfig` the model
needs). -/
structure VaultConfigM where
  name : String
  shadowPolicy : ShadowPolicy
  aether : Bool
  fuse : List VaultNode
  relics : List ProviderSpec
  reveal : List CanonicalId

/-- `new Vault(config)` via `_fastInit`: attach the fused vaults, register
the relics, record the revealed tokens, and — when there is at least one
fused vault — compute the exposure index.  Construction performs no
shadow-policy enforcement: `_enforceShadowPolicy` has no caller inside
the constructor path. -/
def constructVault (cfg : VaultConfigM) : Except ResErr VaultFull := do
  let store ← registerRelics cfg.name cfg.relics
  let pre : VaultFull :=
    { name := cfg.name, shadowPolicy := cfg.shadowPolicy, aether := cfg.aether,
      store := store, revealedTokens := cfg.reveal, fusedVaults := cfg.fuse,
      exposure := ⟨[], []⟩ }
  if cfg.fuse.isEmpty then
    .ok pre
  else
    .ok { pre with exposure := computeExposure (cfg.fuse.length + 2) pre.toNode }

/-! ## Specification views of disposal (for stating the disposal contract) -/

/-- The `dispose`/`close` capability a disposal-loop entry exposes, if any. -/
def dentryDisposer (e : DEntry) : Option Disposer :=
  e.inst.bind (fun i => i.disposer)

/-- What the disposal loop leaves of one entry: slots and instance flag
cleared when a materialized instance was present, untouched otherwise. -/
def dentryCleared (e : DEntry) : DEntry :=
  if e.inst.isSome then
    { e with inst := none, promise := false, flags := e.flags &&& NOT_FLAG_HAS_INSTANCE }
  else e

/-- The synchronous failure an entry's disposer contributes, if any. -/
def dentrySyncFailure (e : DEntry) : Option Nat :=
  match dentryDisposer e with
  | some (.syncThrow err) => some err
  | _ => none

/-- The pending async result an entry's disposer contributes, if any. -/
def dentryPending (e : DEntry) : Option (Except Nat Unit) :=
  match dentryDisposer e with
  | some .asyncOk => some (.ok ())
  | some (.asyncReject err) => some (.error err)
  | _ => none

/-- The async rejection an entry's disposer contributes, if any. -/
def dentryAsyncFailure (e : DEntry) : Option Nat :=
  match dentryDisposer e with
  | some (.asyncReject err) => some err
  | _ => none

/-- The token of an entry whose disposer gets invoked, if any. -/
def dentryInvoked (e : DEntry) : Option CanonicalId :=
  if (dentryDisposer e).isSome then some e.token else none

/-- `Except.isOk` as a plain Bool. -/
def exOk {ε α : Type} : Except ε α → Bool
  | .ok _ => true
  | .error _ => false

/-! ## Concrete fixtures used by the theorems below -/

/-- Entry `A` of an `A → B → A` dependency chain. -/
def eAmodel : Entry :=
  { token := "A", hasCtor := true, summons := [some "B"], lifecycle := .singleton,
    label := "A", aliases := ["A"], inst := none, promise := none, flags := 0 }

/-- Entry `B` of an `A → B → A` dependency chain. -/
def eBmodel : Entry :=
  { token := "B", hasCtor := true, summons := [some "A"], lifecycle := .singleton,
    label := "B", aliases := ["B"], inst := none, promise := none, flags := 0 }

/-- A vault with the circular chain `A → B → A` registered. -/
def stABmodel : VaultSt :=
  ⟨⟨[("A", eAmodel), ("B", eBmodel)], [("A", "V"), ("B", "V")]⟩, [], 0⟩

/-- A self-dependent entry (`A → A`). -/
def eSelfModel : Entry :=
  { token := "A", hasCtor := true, summons := [some "A"], lifecycle := .singleton,
    label := "A", aliases := ["A"], inst := none, promise := none, flags := 0 }

/-- A vault registering the self-dependent entry. -/
def stSelfModel : VaultSt := ⟨⟨[("A", eSelfModel)], [("A", "V")]⟩, [], 0⟩

/-- A fresh (undisposed, empty) scope. -/
def freshScopeModel : ScopeSt := ⟨false, [], []⟩

/-- A disposed scope that even carries a scope-local value for `A`. -/
def disposedScopeModel : ScopeSt := ⟨true, [("A", 5)], []⟩

/-- A zero-dependency singleton entry for the async scenarios. -/
def eAsyncModel : Entry :=
  { token := "X", hasCtor := true, summons := [], lifecycle := .singleton,
    label := "X", aliases := ["X"], inst := none, promise := none, flags := FLAG_HAS_NO_DEPS }

/-- A vault registering the async singleton entry. -/
def stAsyncModel : VaultSt := ⟨⟨[("X", eAsyncModel)], [("X", "V")]⟩, [], 0⟩

/-- A zero-dependency scoped entry. -/
def eScopedModel : Entry :=
  { token := "S", hasCtor := true, summons := [], lifecycle := .scoped,
    label := "S", aliases := ["S"], inst := none, promise := none,
    flags := LIFECYCLE_SCOPED ||| FLAG_HAS_NO_DEPS }

/-- A vault registering the scoped entry. -/
def stScopedModel : VaultSt := ⟨⟨[("S", eScopedModel)], [("S", "V")]⟩, [], 0⟩

/-- Two materialized disposable singletons — the first disposer throws —
plus one entry whose async creation is still in flight. -/
def twoDisposersVault : DVault :=
  ⟨[⟨"D1", some ⟨some (.syncThrow 5)⟩, false, FLAG_HAS_INSTANCE⟩,
    ⟨"D2", some ⟨some .syncOk⟩, false, FLAG_HAS_INSTANCE⟩],
   ["cachedKey"], ["exposedKey"], false⟩

/-- A vault whose only entry has a pending creation promise and no
materialized instance. -/
def pendingPromiseVault : DVault :=
  ⟨[⟨"P", none, true, 0⟩], [], [], false⟩

/-- A fused producer vault revealing token `T`. -/
def producerNodeModel : VaultNode :=
  .mk "Producer" false
    [("T", { token := "T", hasCtor := true, summons := [], lifecycle := .singleton,
             label := "T", aliases := ["T"], inst := some 1, promise := none,
             flags := LIFECYCLE_SINGLETON ||| FLAG_HAS_INSTANCE ||| FLAG_HAS_NO_DEPS })]
    ["T"] []

/-- A `shadowPolicy: 'error'` configuration whose local value provider
shadows the fused producer's revealed token `T`. -/
def cfgShadowModel : VaultConfigM :=
  { name := "LocalV", shadowPolicy := .error, aether := false,
    fuse := [producerNodeModel], relics := [.valueP "T" 2], reveal := [] }

/-- The shadow violations present right after constructing
`cfgShadowModel` (empty when construction failed). -/
def shadowViolationsAfterConstruct : List ShadowViolation :=
  match constructVault cfgShadowModel with
  | .ok vf => collectShadowViolations vf.name vf.store vf.exposure
  | .error _ => []

/-- A local store with two registered tokens, both shadowed below. -/
def twoViolStore : EntryStore :=
  ⟨[("T1", { token := "T1", hasCtor := true, summons := [], lifecycle := .singleton,
             label := "T1", aliases := ["T1"], inst := none, promise := none, flags := 8 }),
    ("T2", { token := "T2", hasCtor := true, summons := [], lifecycle := .scoped,
             label := "T2", aliases := ["T2"], inst := none, promise := none, flags := 9 })],
   [("T1", "LocalV2"), ("T2", "LocalV2")]⟩

/-- An exposure index in which two distinct fused producers expose the
two locally registered tokens. -/
def twoViolExposure : Exposure :=
  ⟨[], [("T1", ("P1", "T1")), ("T2", ("P2", "T2"))]⟩

/-- Consumer-first registration order: the singleton `A` (depending on
`B`) is registered before the transient `B`. -/
def c4ConsumerFirst : List ProviderSpec :=
  [.classP "A" .singleton [some "B"], .classP "B" .transient []]

/-- Dependency-first registration order: the transient `B` before the
singleton `A` that depends on it. -/
def c4DepFirst : List ProviderSpec :=
  [.classP "B" .transient [], .classP "A" .singleton [some "B"]]

/-- The store produced by the consumer-first registration (empty when the
registration failed). -/
def c4StoreAfter : EntryStore :=
  match registerRelics "V" c4ConsumerFirst with
  | .ok s => s
  | .error _ => ⟨[], []⟩

/-- A store in which token `T` is already owned by vault `V`. -/
def sameOwnerStoreModel : EntryStore :=
  ⟨[("T", { token := "T", hasCtor := true, summons := [], lifecycle := .singleton,
            label := "T", aliases := ["T"], inst := some 1, promise := none, flags := 12 })],
   [("T", "V")]⟩

/-- A second registration record claiming the same canonical id `T`. -/
def colEntryModel : Entry :=
  { token := "T", hasCtor := true, summons := [], lifecycle := .singleton,
    label := "T2nd", aliases := ["T"], inst := some 2, promise := none, flags := 12 }

/-- A transient-lifecycle entry whose shared flags nevertheless carry
`FLAG_HAS_INSTANCE` and a shared instance. -/
def eHotTransientModel : Entry :=
  { token := "H", hasCtor := true, summons := [], lifecycle := .transient,
    label := "H", aliases := ["H"], inst := some 42, promise := none,
    flags := LIFECYCLE_TRANSIENT ||| FLAG_HAS_INSTANCE ||| FLAG_HAS_NO_DEPS }

/-- A vault registering the hot transient entry. -/
def stHotTransientModel : VaultSt := ⟨⟨[("H", eHotTransientModel)], [("H", "V")]⟩, [], 0⟩

end Ceryn

deriving instance DecidableEq for Except

namespace Ceryn

/-! ## Helper lemmas -/

theorem assocGet_assocSet_self {α : Type} (l : List (CanonicalId × α)) (k : CanonicalId) (v : α) :
    assocGet (assocSet l k v) k = some v := by
  induction l with
  | nil => simp [assocGet, assocSet]
  | cons hd tl ih =>
    obtain ⟨k', v'⟩ := hd
    by_cases h : k = k'
    · simp [assocGet, assocSet, h]
    · simp [assocGet, assocSet, h, ih]

theorem assocGet_assocSet_ne {α : Type} (l : List (CanonicalId × α)) (k k' : CanonicalId) (v : α)
    (h : k' ≠ k) : assocGet (assocSet l k v) k' = assocGet l k' := by
  induction l with
  | nil => simp [assocGet, assocSet, h]
  | cons hd tl ih =>
    obtain ⟨k0, v0⟩ := hd
    by_cases hk : k = k0
    · subst hk
      simp [assocGet, assocSet, h]
    · by_cases hk' : k' = k0
      · simp [assocGet, assocSet, hk, hk']
      · simp [assocGet, assocSet, hk, hk', ih]

/-- `indexOf` points at the first occurrence: nothing before it equals `c`. -/
theorem not_mem_take_indexOf (l : List String) (c : String) :
    c ∉ l.take (l.indexOf c) := by
  induction l with
  | nil => simp
  | cons hd tl ih =>
    by_cases h : hd = c
    · subst h
      simp [List.indexOf_cons_self]
    · have : (hd :: tl).indexOf c = tl.indexOf c + 1 := by
        simp [List.indexOf_cons_ne _ h]
      rw [this]
      simp only [List.take_succ_cons, List.mem_cons]
      rintro (rfl | hc)
      · exact h rfl
      · exact ih hc

/-- First resolution of an uncached zero-dependency scoped entry with a
scope: a fresh instance is created and primed into the scope cache. -/
theorem scopedResolve_uncached (fuel : Nat) (st : VaultSt) (e : Entry) (t : CanonicalId)
    (sc : ScopeSt)
    (hlook : st.store.getByCanonical t = some e)
    (hflags : e.flags = LIFECYCLE_SCOPED ||| FLAG_HAS_NO_DEPS)
    (hctor : e.hasCtor = true)
    (htok : e.token = t)
    (hal : e.aliases = [t])
    (hl : assocGet sc.locals t = none)
    (hc : assocGet sc.cache t = none)
    (hck : assocGet st.cacheKeys t = none) :
    vaultResolve (fuel + 1) st (some sc) t =
      .ok (some st.counter, { st with counter := st.counter + 1 },
           some { sc with cache := assocSet sc.cache t (some st.counter) }) := by
  have hlook' : assocGet st.store.entries t = some e := hlook
  have h94 : (9 : Nat) &&& 4 = 0 := by decide
  have h93 : (9 : Nat) &&& 3 = 1 := by decide
  simp [vaultResolve, vaultResolveRest, fromEntry, instantiateSyncWith, cacheGet, h94, h93,
        EntryStore.hasTok, EntryStore.getByCanonical, hlook', hflags, hctor, htok, hal,
        hl, hc, hck, LIFECYCLE_SCOPED, FLAG_HAS_NO_DEPS, LIFECYCLE_MASK, LIFECYCLE_SINGLETON,
        FLAG_HAS_INSTANCE, scopePrimeAll, VaultSt.setEntry]

/-- A later resolution through the same scope hits the scope cache and
returns the stored instance without touching the vault state. -/
theorem scopedResolve_cached (fuel : Nat) (st : VaultSt) (t : CanonicalId) (sc : ScopeSt)
    (v : Value)
    (hl : assocGet sc.locals t = none)
    (hck : assocGet st.cacheKeys t = none) :
    vaultResolve (fuel + 1) st (some { sc with cache := assocSet sc.cache t (some v) }) t =
      .ok (some v, st, some { sc with cache := assocSet sc.cache t (some v) }) := by
  simp [vaultResolve, vaultResolveRest, cacheGet, hl, hck, assocGet_assocSet_self]

/-- Resolving a scoped entry without a scope fails with the dedicated
error carrying the dependency chain. -/
theorem scopedResolve_noScope (fuel : Nat) (st : VaultSt) (e : Entry) (t : CanonicalId)
    (hlook : st.store.getByCanonical t = some e)
    (hflags : e.flags = LIFECYCLE_SCOPED ||| FLAG_HAS_NO_DEPS)
    (htok : e.token = t)
    (hck : assocGet st.cacheKeys t = none) :
    vaultResolve (fuel + 1) st none t =
      .error (.scopedWithoutScope t [describeToken st t]) := by
  have hlook' : assocGet st.store.entries t = some e := hlook
  have h94 : (9 : Nat) &&& 4 = 0 := by decide
  have h93 : (9 : Nat) &&& 3 = 1 := by decide
  simp [vaultResolve, vaultResolveRest, fromEntry, cacheGet, h94, h93,
        EntryStore.hasTok, EntryStore.getByCanonical, hlook', hflags, htok,
        hck, LIFECYCLE_SCOPED, FLAG_HAS_NO_DEPS, LIFECYCLE_MASK, LIFECYCLE_SINGLETON,
        FLAG_HAS_INSTANCE]

/-- Arriving while a creation is in flight: the caller awaits the same
promise and changes nothing. -/
theorem asyncArrive_inflight (c : CanonicalId) (st : VaultSt) (e : Entry) (pid fresh : Nat)
    (hlook : st.store.getByCanonical c = some e)
    (hmask : e.flags &&& LIFECYCLE_MASK = 0)
    (hinst : e.flags &&& FLAG_HAS_INSTANCE = 0)
    (hp : e.promise = some pid) :
    asyncArrive c [] st fresh = .ok (.awaitShared pid false, st) := by
  have hmask' : e.flags &&& 3 = 0 := hmask
  have hinst' : e.flags &&& 4 = 0 := hinst
  simp [asyncArrive, hlook, hmask', hinst', hp, LIFECYCLE_MASK, LIFECYCLE_SINGLETON,
        FLAG_HAS_INSTANCE]

/-- Any number of callers arriving while a creation is in flight all
await the same promise and leave the state unchanged. -/
theorem asyncArrivals_inflight (c : CanonicalId) (st : VaultSt) (e : Entry) (pid : Nat)
    (hlook : st.store.getByCanonical c = some e)
    (hmask : e.flags &&& LIFECYCLE_MASK = 0)
    (hinst : e.flags &&& FLAG_HAS_INSTANCE = 0)
    (hp : e.promise = some pid) (n fresh : Nat) :
    asyncArrivals c n st fresh = (st, List.replicate n (.ok (.awaitShared pid false))) := by
  induction n generalizing fresh with
  | zero => simp [asyncArrivals]
  | succ m ih =>
    simp [asyncArrivals, asyncArrive_inflight c st e pid fresh hlook hmask hinst hp, ih,
          List.replicate_succ]

/-- From an unmaterialized entry with nothing in flight, the first of
`n + 1` callers starts the creation; all the rest await its promise. -/
theorem asyncArrivals_fresh (n : Nat) (st : VaultSt) (c : CanonicalId) (e : Entry) (pid : Nat)
    (hlook : st.store.getByCanonical c = some e)
    (hmask : e.flags &&& LIFECYCLE_MASK = 0)
    (hinst : e.flags &&& FLAG_HAS_INSTANCE = 0)
    (hp : e.promise = none) :
    asyncArrivals c (n + 1) st pid =
      (st.setEntry c { e with promise := some pid },
       .ok (.awaitShared pid true) :: List.replicate n (.ok (.awaitShared pid false))) := by
  have harr : asyncArrive c [] st pid =
      .ok (.awaitShared pid true, st.setEntry c { e with promise := some pid }) := by
    have hmask' : e.flags &&& 3 = 0 := hmask
    have hinst' : e.flags &&& 4 = 0 := hinst
    simp [asyncArrive, hlook, hmask', hinst', hp, LIFECYCLE_MASK, LIFECYCLE_SINGLETON,
          FLAG_HAS_INSTANCE]
  have hlook2 : (st.setEntry c { e with promise := some pid }).store.getByCanonical c
      = some { e with promise := some pid } := by
    simp [VaultSt.setEntry, EntryStore.getByCanonical, assocGet_assocSet_self]
  have hsteady := asyncArrivals_inflight c (st.setEntry c { e with promise := some pid })
    { e with promise := some pid } pid hlook2 hmask hinst rfl n (pid + 1)
  simp [asyncArrivals, harr, hsteady]

/-- Exactly one creation start in the canonical arrival pattern. -/
theorem creationsStarted_one (pid : Nat) (n : Nat) :
    creationsStarted
      (.ok (.awaitShared pid true) :: List.replicate n (.ok (.awaitShared pid false))) = 1 := by
  simp [creationsStarted, List.countP_cons]

/-- Failure settlement clears the in-flight slot and rethrows. -/
theorem settle_error_clears (st : VaultSt) (c : CanonicalId) (e : Entry) (errId : Nat)
    (hlook : st.store.getByCanonical c = some e) :
    settleShared c st (.error errId)
      = (st.setEntry c { e with promise := none }, .error errId) := by
  simp [settleShared, hlook]

/-- Success settlement commits the instance, sets the flag, clears the
slot and primes the hot cache. -/
theorem settle_ok_commits (st : VaultSt) (c : CanonicalId) (e : Entry) (v : Value)
    (hlook : st.store.getByCanonical c = some e)
    (htok : e.token = c) (hal : e.aliases = [c]) :
    (settleShared c st (.ok v)).1.store.getByCanonical c
      = some { e with inst := some v, flags := e.flags ||| FLAG_HAS_INSTANCE, promise := none }
    ∧ assocGet (settleShared c st (.ok v)).1.cacheKeys c = some c := by
  have hlook' : assocGet st.store.entries c = some e := hlook
  simp [settleShared, hlook', VaultSt.setEntry, EntryStore.getByCanonical,
        assocGet_assocSet_self, cachePrimeAll, htok, hal]

/-- What the disposal loop computes, entry by entry. -/
theorem disposeLoop_spec (es : List DEntry) :
    disposeLoop es = (es.map dentryCleared, es.filterMap dentrySyncFailure,
                      es.filterMap dentryPending, es.filterMap dentryInvoked) := by
  induction es with
  | nil => simp [disposeLoop]
  | cons e rest ih =>
    rcases e with ⟨tok, inst, prom, flags⟩
    cases inst with
    | none =>
      simp [disposeLoop, ih, disposeEntry, dentryCleared, dentrySyncFailure, dentryPending,
            dentryInvoked, dentryDisposer]
    | some i =>
      rcases i with ⟨d⟩
      cases d with
      | none =>
        simp [disposeLoop, ih, disposeEntry, dentryCleared, dentrySyncFailure, dentryPending,
              dentryInvoked, dentryDisposer]
      | some disp =>
        cases disp <;>
          simp [disposeLoop, ih, disposeEntry, dentryCleared, dentrySyncFailure, dentryPending,
                dentryInvoked, dentryDisposer]

/-- The rejections among the pending async results are exactly the
async-rejecting disposers, in order. -/
theorem pending_rejections (es : List DEntry) :
    (es.filterMap dentryPending).filterMap
        (fun r => match r with | .error e => some e | .ok _ => none)
      = es.filterMap dentryAsyncFailure := by
  induction es with
  | nil => simp
  | cons e rest ih =>
    cases hd : dentryDisposer e with
    | none => simp [dentryPending, dentryAsyncFailure, hd, ih]
    | some d => cases d <;> simp [dentryPending, dentryAsyncFailure, hd, ih]

/-- Full characterization of `Vault.dispose` on an undisposed vault. -/
theorem disposeVault_spec (v : DVault) (hv : v.disposed = false) :
    disposeVault v =
      ({ entries := v.entries.map dentryCleared, cache := [], exposure := [], disposed := true },
       v.entries.filterMap dentrySyncFailure ++ v.entries.filterMap dentryAsyncFailure,
       v.entries.filterMap dentryInvoked) := by
  simp [disposeVault, hv, disposeLoop_spec, pending_rejections]

/-- The error policy throws one error carrying every collected violation. -/
theorem enforce_error_all (selfName : String) (store : EntryStore) (ex : Exposure)
    (h : collectShadowViolations selfName store ex ≠ []) :
    enforceShadowPolicy selfName .error store ex
      = .error (selfName, collectShadowViolations selfName store ex) := by
  simp [enforceShadowPolicy, h]

/-! ## Claim theorems -/

/-- C1 — For every singleton entry that is not yet materialized and has
no creation in flight, `n + 1` callers arriving concurrently (in
cooperative order, before the shared creation settles) cause the
underlying factory/constructor to be started exactly once — by the first
caller — and every caller awaits the same shared promise.  Per-caller
cancellation is local: the arrival transition takes no signal at all
(the shared creation is started signal-free), a caller whose signal
fires first merely sees its own await reject with the abort outcome,
and the shared success value is delivered to every caller whose signal
did not fire; committing the result does not depend on any caller's
abort state. -/
theorem claim_async_singleton_exactly_once
    (n : Nat) (st : VaultSt) (c : CanonicalId) (e : Entry) (pid : Nat)
    (hlook : st.store.getByCanonical c = some e)
    (hmask : e.flags &&& LIFECYCLE_MASK = 0)
    (hinst : e.flags &&& FLAG_HAS_INSTANCE = 0)
    (hp : e.promise = none) :
    asyncArrivals c (n + 1) st pid
      = (st.setEntry c { e with promise := some pid },
         .ok (.awaitShared pid true) :: List.replicate n (.ok (.awaitShared pid false)))
    ∧ creationsStarted (asyncArrivals c (n + 1) st pid).2 = 1
    ∧ (∀ (abortedFirst : Bool) (v : Value),
        raceDeliver (.ok v) abortedFirst = if abortedFirst then .aborted else .ok v)
    ∧ (∀ v : Value,
        (settleShared c (st.setEntry c { e with promise := some pid }) (.ok v)).2 = .ok v) := by
  have hmain := asyncArrivals_fresh n st c e pid hlook hmask hinst hp
  refine ⟨hmain, ?_, ?_, ?_⟩
  · rw [hmain]
    exact creationsStarted_one pid n
  · intro abortedFirst v
    cases abortedFirst <;> simp [raceDeliver]
  · intro v
    have hlook2 : (st.setEntry c { e with promise := some pid }).store.getByCanonical c
        = some { e with promise := some pid } := by
      simp [VaultSt.setEntry, EntryStore.getByCanonical, assocGet_assocSet_self]
    simp [settleShared, hlook2]

/-- C1 witness: three concurrent callers for the unmaterialized async
singleton `X` — one creation started, all await promise 100. -/
theorem claim_async_singleton_exactly_once_witness :
    asyncArrivals "X" 3 stAsyncModel 100
      = (stAsyncModel.setEntry "X" { eAsyncModel with promise := some 100 },
         .ok (.awaitShared 100 true) :: List.replicate 2 (.ok (.awaitShared 100 false)))
    ∧ creationsStarted (asyncArrivals "X" 3 stAsyncModel 100).2 = 1 := by
  have h := claim_async_singleton_exactly_once 2 stAsyncModel "X" eAsyncModel 100
    (by decide) (by decide) (by decide) (by decide)
  exact ⟨h.1, h.2.1⟩

/-- C2 — Whenever the requested canonical token is already on the
traversal stack, both resolvers fail with a circular-dependency error
whose payload is exactly the stack slice from the first occurrence of
the repeated token (nothing before `indexOf` equals it) to the end of
the stack, followed by the repeated token again; for the concrete chain
`A → B → A`, resolving `A` reports exactly `[A, B, A]`. -/
theorem claim_cycle_reported_exactly :
    (∀ (fuel : Nat) (c : CanonicalId) (stack : List CanonicalId) (st : VaultSt)
        (scope : Option ScopeSt) (e : Entry),
      st.store.getByCanonical c = some e → c ∈ stack →
        fromEntry (fuel + 1) c stack st scope =
          .error (.circular ((stack.drop (stack.indexOf c) ++ [c]).map (describeToken st)))
        ∧ c ∉ stack.take (stack.indexOf c))
    ∧ (∀ (c : CanonicalId) (stack : List CanonicalId) (st : VaultSt) (pid : Nat) (e : Entry),
      st.store.getByCanonical c = some e → c ∈ stack →
        asyncArrive c stack st pid =
          .error (.circular ((stack.drop (stack.indexOf c) ++ [c]).map (describeToken st))))
    ∧ vaultResolve 4 stABmodel none "A" = .error (.circular ["A [A]", "B [B]", "A [A]"]) := by
  refine ⟨?_, ?_, by decide⟩
  · intro fuel c stack st scope e hlook hmem
    exact ⟨by simp [fromEntry, hlook, hmem], not_mem_take_indexOf stack c⟩
  · intro c stack st pid e hlook hmem
    simp [asyncArrive, hlook, hmem]

/-- C2 witness: the sync resolver called with `A` already on the stack
`[A, B]` reports the cycle `[A, B, A]`. -/
theorem claim_cycle_reported_exactly_witness :
    fromEntry 3 "A" ["A", "B"] stABmodel none
      = .error (.circular ["A [A]", "B [B]", "A [A]"])
    ∧ "A" ∉ (["A", "B"].take ((["A", "B"] : List String).indexOf "A")) := by
  have h := claim_cycle_reported_exactly.1 2 "A" ["A", "B"] stABmodel none eAmodel
    (by decide) (by decide)
  refine ⟨?_, h.2⟩
  rw [h.1]
  decide

/-- C3 counterexample — constructing a container with the default
`shadowPolicy: 'error'` whose local registration of `T` is shadowed by a
fused producer succeeds (no aggregate error is thrown at construction),
even though exactly one shadow violation exists right afterwards:
`_enforceShadowPolicy` has no caller on the construction path. -/
theorem claim_shadow_construction_counterexample :
    exOk (constructVault cfgShadowModel) = true
    ∧ shadowViolationsAfterConstruct
        = [{ token := "T [T]", producers := ["Producer"], lifecycle := .singleton }] := by
  constructor
  · decide
  · decide

/-- C3 (amended) — Shadow enforcement is not performed during
construction; the enforcement routine itself, when invoked with policy
`error` after the exposure index is computed, throws one aggregate error
listing all collected violations — each with the formatted token, its
lifecycle and the deduplicated shadowing producer names — never just the
first one: with two locally registered tokens shadowed by two different
producers, both violations are reported. -/
theorem claim_shadow_error_aggregates_all :
    (∀ (selfName : String) (store : EntryStore) (ex : Exposure),
      collectShadowViolations selfName store ex ≠ [] →
        enforceShadowPolicy selfName .error store ex
          = .error (selfName, collectShadowViolations selfName store ex))
    ∧ enforceShadowPolicy "LocalV2" .error twoViolStore twoViolExposure
        = .error ("LocalV2",
            [{ token := "T1 [T1]", producers := ["P1"], lifecycle := .singleton },
             { token := "T2 [T2]", producers := ["P2"], lifecycle := .scoped }])
    ∧ exOk (constructVault cfgShadowModel) = true := by
  exact ⟨enforce_error_all, by decide, by decide⟩

/-- C3 witness: the error policy applied to the two-violation fixture
produces the full aggregated list. -/
theorem claim_shadow_error_aggregates_all_witness :
    enforceShadowPolicy "LocalV2" .error twoViolStore twoViolExposure
      = .error ("LocalV2", collectShadowViolations "LocalV2" twoViolStore twoViolExposure) :=
  claim_shadow_error_aggregates_all.1 "LocalV2" twoViolStore twoViolExposure (by decide)

/-- C4 — Registration-time lifecycle validation is eager only when the
dependency is already registered: registering the transient `B` first
and then the singleton `A` depending on it fails immediately with the
lifecycle-violation error.  But in the consumer-first order the deferred
check never re-runs: registering `A` (singleton, depending on the
not-yet-registered `B`) and then `B` (transient) succeeds with no error
at `B`'s registration — contrary to the source's own comment that the
skipped pair "will be validated when that dependency gets registered" —
and the later resolution of `A` also succeeds (the resolution path
performs no lifecycle check; `_validateLifecycleRules` has no caller),
yielding the materialized singleton. -/
theorem claim_lifecycle_deferred_check_divergence :
    registerRelics "V" c4ConsumerFirst = .ok c4StoreAfter
    ∧ exOk (vaultResolve 4 (VaultSt.ofStore c4StoreAfter) none "A") = true
    ∧ (vaultResolve 4 (VaultSt.ofStore c4StoreAfter) none "A").map (fun r => r.1)
        = .ok (some 1)
    ∧ registerRelics "V" c4DepFirst
        = .error (.lifecycleViolation "A" .singleton "B" .transient) := by
  refine ⟨by decide, by decide, by decide, by decide⟩

/-- C5 — For a zero-dependency scoped entry: resolving twice through the
same scope returns the identical instance (the second resolution hits
the scope cache and leaves all state unchanged); resolving through a
second, distinct scope creates a distinct fresh instance; and resolving
with no scope fails with the scoped-without-scope error carrying the
dependency chain. -/
theorem claim_scoped_lifecycle
    (fuel : Nat) (st : VaultSt) (e : Entry) (t : CanonicalId) (sc sc2 : ScopeSt)
    (hlook : st.store.getByCanonical t = some e)
    (hflags : e.flags = LIFECYCLE_SCOPED ||| FLAG_HAS_NO_DEPS)
    (hctor : e.hasCtor = true)
    (htok : e.token = t)
    (hal : e.aliases = [t])
    (hl : assocGet sc.locals t = none)
    (hc : assocGet sc.cache t = none)
    (hl2 : assocGet sc2.locals t = none)
    (hc2 : assocGet sc2.cache t = none)
    (hck : assocGet st.cacheKeys t = none) :
    vaultResolve (fuel + 1) st (some sc) t =
      .ok (some st.counter, { st with counter := st.counter + 1 },
           some { sc with cache := assocSet sc.cache t (some st.counter) })
    ∧ vaultResolve (fuel + 1) { st with counter := st.counter + 1 }
        (some { sc with cache := assocSet sc.cache t (some st.counter) }) t =
      .ok (some st.counter, { st with counter := st.counter + 1 },
           some { sc with cache := assocSet sc.cache t (some st.counter) })
    ∧ vaultResolve (fuel + 1) { st with counter := st.counter + 1 } (some sc2) t =
      .ok (some (st.counter + 1), { st with counter := st.counter + 2 },
           some { sc2 with cache := assocSet sc2.cache t (some (st.counter + 1)) })
    ∧ (some (st.counter + 1) : Option Value) ≠ some st.counter
    ∧ vaultResolve (fuel + 1) st none t =
      .error (.scopedWithoutScope t [describeToken st t]) := by
  refine ⟨scopedResolve_uncached fuel st e t sc hlook hflags hctor htok hal hl hc hck,
    scopedResolve_cached fuel { st with counter := st.counter + 1 } t sc st.counter hl hck,
    ?_, by simp, scopedResolve_noScope fuel st e t hlook hflags htok hck⟩
  exact scopedResolve_uncached fuel { st with counter := st.counter + 1 } e t sc2
    hlook hflags hctor htok hal hl2 hc2 hck

/-- C5 witness: the scoped entry `S` resolved through one scope twice and
through a second scope, plus the no-scope error. -/
theorem claim_scoped_lifecycle_witness :
    vaultResolve 3 stScopedModel (some freshScopeModel) "S" =
      .ok (some 0, { stScopedModel with counter := 1 },
           some { freshScopeModel with cache := assocSet freshScopeModel.cache "S" (some 0) })
    ∧ vaultResolve 3 stScopedModel none "S" =
      .error (.scopedWithoutScope "S" [describeToken stScopedModel "S"]) := by
  have h := claim_scoped_lifecycle 2 stScopedModel eScopedModel "S"
    freshScopeModel freshScopeModel (by decide) (by decide) (by decide) (by decide)
    (by decide) (by decide) (by decide) (by decide) (by decide) (by decide)
  exact ⟨h.1, h.2.2.2.2⟩

/-- C6 counterexample — disposal does not clear every promise slot: an
entry whose async creation is still in flight (pending promise, no
materialized instance) is skipped by the disposal loop, so its promise
slot survives `dispose()`. -/
theorem claim_dispose_promise_slot_counterexample :
    pendingPromiseVault.entries.map DEntry.promise = [true]
    ∧ ((disposeVault pendingPromiseVault).1.entries.map DEntry.promise) = [true] := by
  constructor
  · decide
  · decide

/-- C6 (amended) — On an undisposed container, disposal invokes the
`dispose`/`close` capability of every entry that has a materialized
instance exposing one (in entry order, one failure never preventing the
next); clears the instance/promise slots and the instance flag of every
entry with a materialized instance (entries without one are skipped, so
an in-flight promise survives); clears the cache and the exposure index
and marks the vault disposed; and throws one aggregate error containing
exactly the failures — the synchronous throws in loop order followed by
the async rejections in settlement order — and nothing when there are
none.  Concretely, with two disposable singletons whose first disposer
throws, the second disposer is still invoked and the aggregate error
contains exactly one entry. -/
theorem claim_dispose_contract (v : DVault) (hv : v.disposed = false) :
    disposeVault v =
      ({ entries := v.entries.map dentryCleared, cache := [], exposure := [], disposed := true },
       v.entries.filterMap dentrySyncFailure ++ v.entries.filterMap dentryAsyncFailure,
       v.entries.filterMap dentryInvoked)
    ∧ disposeOutcome v =
        (if (v.entries.filterMap dentrySyncFailure
              ++ v.entries.filterMap dentryAsyncFailure).isEmpty
         then .ok ()
         else .error (v.entries.filterMap dentrySyncFailure
              ++ v.entries.filterMap dentryAsyncFailure))
    ∧ (disposeVault twoDisposersVault).2.2 = ["D1", "D2"]
    ∧ disposeOutcome twoDisposersVault = .error [5] := by
  refine ⟨disposeVault_spec v hv, ?_, by decide, by decide⟩
  simp [disposeOutcome, disposeVault_spec v hv]

/-- C6 witness: the contract applied to the two-disposer fixture. -/
theorem claim_dispose_contract_witness :
    disposeVault twoDisposersVault =
      ({ entries := twoDisposersVault.entries.map dentryCleared, cache := [], exposure := [],
         disposed := true },
       twoDisposersVault.entries.filterMap dentrySyncFailure
         ++ twoDisposersVault.entries.filterMap dentryAsyncFailure,
       twoDisposersVault.entries.filterMap dentryInvoked) :=
  (claim_dispose_contract twoDisposersVault (by decide)).1

/-- C7 counterexample — `EntryStore.add` collides even when the canonical
id is already owned by the *same* container: re-adding token `T` under
the same vault name `V` throws the token-collision error instead of
succeeding. -/
theorem claim_entry_store_same_owner_counterexample :
    EntryStore.add sameOwnerStoreModel colEntryModel "V"
      = .error (.tokenCollision "T" "V" "V") := by
  decide

/-- C7 (amended) — `add(entry, ownerName)` fails with a token-collision
error whenever the canonical id already has an owner — any owner, the
same container included — naming the existing owner and the new vault;
when the id is unowned it stores the entry and its ownership record
(write-once: there is no removal API in the store model). -/
theorem claim_entry_store_add_contract (s : EntryStore) (e : Entry) (n : String) :
    (∀ owner, assocGet s.owners e.token = some owner →
      EntryStore.add s e n = .error (.tokenCollision e.token owner n))
    ∧ (assocGet s.owners e.token = none →
      EntryStore.add s e n
        = .ok ⟨assocSet s.entries e.token e, assocSet s.owners e.token n⟩
      ∧ EntryStore.getByCanonical
          ⟨assocSet s.entries e.token e, assocSet s.owners e.token n⟩ e.token = some e
      ∧ assocGet (assocSet s.owners e.token n) e.token = some n) := by
  constructor
  · intro owner h
    simp [EntryStore.add, h]
  · intro h
    exact ⟨by simp [EntryStore.add, h],
      by simp [EntryStore.getByCanonical, assocGet_assocSet_self],
      assocGet_assocSet_self s.owners e.token n⟩

/-- C7 witness: successful add into an empty store, and the collision on
the occupied store. -/
theorem claim_entry_store_add_contract_witness :
    EntryStore.add ⟨[], []⟩ colEntryModel "W"
      = .ok ⟨[("T", colEntryModel)], [("T", "W")]⟩
    ∧ EntryStore.add sameOwnerStoreModel colEntryModel "W"
      = .error (.tokenCollision "T" "V" "W") := by
  refine ⟨((claim_entry_store_add_contract ⟨[], []⟩ colEntryModel "W").2 (by decide)).1,
    (claim_entry_store_add_contract sameOwnerStoreModel colEntryModel "W").1 "V" (by decide)⟩

/-- C8 counterexample — `tryResolve` on a disposed scope returns the
absent value instead of letting a scope-disposed error propagate, even
when the token has a scope-local registration. -/
theorem claim_try_resolve_disposed_counterexample :
    scopeTryResolve 4 disposedScopeModel stSelfModel "A"
      = .ok (none, stSelfModel, some disposedScopeModel) := by
  decide

/-- C8 (amended) — `tryResolve` returns the absent value in exactly two
situations: the token is not resolvable (`has()` fails) or the scope is
already disposed; in every other situation it behaves as `resolve`, so
any other resolution error — e.g. a circular-dependency error, as in the
concrete self-dependent chain — still propagates to the caller. -/
theorem claim_try_resolve_contract :
    (∀ (fuel : Nat) (sc : ScopeSt) (st : VaultSt) (t : CanonicalId),
      sc.disposed = false → scopeHas sc st t = false →
        scopeTryResolve fuel sc st t = .ok (none, st, some sc))
    ∧ (∀ (fuel : Nat) (sc : ScopeSt) (st : VaultSt) (t : CanonicalId),
      sc.disposed = true → scopeTryResolve fuel sc st t = .ok (none, st, some sc))
    ∧ (∀ (fuel : Nat) (sc : ScopeSt) (st : VaultSt) (t : CanonicalId),
      sc.disposed = false → scopeHas sc st t = true →
        scopeTryResolve fuel sc st t = scopeResolve fuel sc st t)
    ∧ scopeTryResolve 4 freshScopeModel stSelfModel "A"
        = .error (.circular ["A [A]", "A [A]"]) := by
  refine ⟨?_, ?_, ?_, by decide⟩
  · intro fuel sc st t hd hh
    simp [scopeTryResolve, hd, hh]
  · intro fuel sc st t hd
    simp [scopeTryResolve, hd]
  · intro fuel sc st t hd hh
    simp [scopeTryResolve, hd, hh]

/-- C8 witness: the not-registered case returns the absent value on a
concrete fresh scope. -/
theorem claim_try_resolve_contract_witness :
    scopeTryResolve 4 freshScopeModel stSelfModel "Z"
      = .ok (none, stSelfModel, some freshScopeModel) :=
  claim_try_resolve_contract.1 4 freshScopeModel stSelfModel "Z" (by decide) (by decide)

/-- C9 — When the shared async singleton creation fails, the in-flight
promise slot is cleared as the error propagates, so a subsequent arrival
for the same token starts a fresh creation (the factory is re-invoked;
failures are never cached); on success the instance is committed to the
entry (flag set, slot cleared) and the hot cache is primed with the
canonical token. -/
theorem claim_async_failure_not_cached
    (st : VaultSt) (c : CanonicalId) (e : Entry) (errId pid : Nat) (v : Value)
    (hlook : st.store.getByCanonical c = some e)
    (htok : e.token = c) (hal : e.aliases = [c]) :
    settleShared c st (.error errId)
      = (st.setEntry c { e with promise := none }, .error errId)
    ∧ (e.flags &&& LIFECYCLE_MASK = 0 → e.flags &&& FLAG_HAS_INSTANCE = 0 →
        asyncArrive c [] (st.setEntry c { e with promise := none }) pid
          = .ok (.awaitShared pid true,
              (st.setEntry c { e with promise := none }).setEntry c
                { e with promise := some pid }))
    ∧ (settleShared c st (.ok v)).1.store.getByCanonical c
        = some { e with inst := some v, flags := e.flags ||| FLAG_HAS_INSTANCE, promise := none }
    ∧ assocGet (settleShared c st (.ok v)).1.cacheKeys c = some c := by
  have hok := settle_ok_commits st c e v hlook htok hal
  refine ⟨settle_error_clears st c e errId hlook, ?_, hok.1, hok.2⟩
  intro hmask hinst
  have hlook2 : (st.setEntry c { e with promise := none }).store.getByCanonical c
      = some { e with promise := none } := by
    simp [VaultSt.setEntry, EntryStore.getByCanonical, assocGet_assocSet_self]
  have hmask' : ({ e with promise := none } : Entry).flags &&& 3 = 0 := hmask
  have hinst' : ({ e with promise := none } : Entry).flags &&& 4 = 0 := hinst
  simp [asyncArrive, hlook2, hmask', hinst', LIFECYCLE_MASK, LIFECYCLE_SINGLETON,
        FLAG_HAS_INSTANCE]

/-- C9 witness: a failed then retried creation for the concrete async
singleton `X`, and a successful commitment priming the cache. -/
theorem claim_async_failure_not_cached_witness :
    settleShared "X" stAsyncModel (.error 9)
      = (stAsyncModel.setEntry "X" { eAsyncModel with promise := none }, .error 9)
    ∧ asyncArrive "X" []
        (stAsyncModel.setEntry "X" { eAsyncModel with promise := none }) 200
      = .ok (.awaitShared 200 true,
          (stAsyncModel.setEntry "X" { eAsyncModel with promise := none }).setEntry "X"
            { eAsyncModel with promise := some 200 })
    ∧ assocGet (settleShared "X" stAsyncModel (.ok 7)).1.cacheKeys "X" = some "X" := by
  have h := claim_async_failure_not_cached stAsyncModel "X" eAsyncModel 9 200 7
    (by decide) (by decide) (by decide)
  exact ⟨h.1, h.2.1 (by decide) (by decide), h.2.2.2⟩

/-- C10 — In the sync resolver's materialized fast path, the guard
`(entry.flags & LIFECYCLE_SINGLETON) === 0` is vacuously true because
`LIFECYCLE_SINGLETON` is the bit pattern `0b00`, so the whole condition
is equivalent to testing `FLAG_HAS_INSTANCE` alone; consequently, for
every stored entry whose flags include `FLAG_HAS_INSTANCE` — whatever
its lifecycle bits — the resolver returns the shared `entry.instance`
with the state untouched (no instantiation). -/
theorem claim_fast_path_vacuous_mask :
    (∀ flags : Nat,
      (flags &&& LIFECYCLE_SINGLETON == 0 && flags &&& FLAG_HAS_INSTANCE != 0)
        = (flags &&& FLAG_HAS_INSTANCE != 0))
    ∧ (∀ (fuel : Nat) (c : CanonicalId) (stack : List CanonicalId) (st : VaultSt)
        (scope : Option ScopeSt) (e : Entry),
      st.store.getByCanonical c = some e → c ∉ stack →
        e.flags &&& FLAG_HAS_INSTANCE ≠ 0 →
        fromEntry (fuel + 1) c stack st scope = .ok (e.inst, st, scope)) := by
  constructor
  · intro flags
    simp [LIFECYCLE_SINGLETON]
  · intro fuel c stack st scope e hlook hmem hflag
    simp [fromEntry, hlook, hmem, LIFECYCLE_SINGLETON, hflag]

/-- C10 witness: a transient-lifecycle entry carrying a shared instance
and `FLAG_HAS_INSTANCE` is returned from the shared slot. -/
theorem claim_fast_path_vacuous_mask_witness :
    fromEntry 1 "H" [] stHotTransientModel none
      = .ok (some 42, stHotTransientModel, none) :=
  claim_fast_path_vacuous_mask.2 0 "H" [] stHotTransientModel none eHotTransientModel
    (by decide) (by decide) (by decide)

end Ceryn
